import Mathlib

/-!
Verification of the flask-refresh-cache stale-while-revalidate coordinator
(`src/cache_manager.py`, `src/app.py`).

The embedding models the cache store (`flask_caching.Cache`) as an
association list from string keys to stored cells.  A cell is either a
cache entry `{'data': ..., 'timestamp': ...}` or the boolean `True` flag
stored under a `<key>_refreshing` lock key; the optional TTL passed to
`cache.set(..., timeout=...)` is recorded in the cell.  Opaque cached
values are modelled as naturals, times as integers (Python ints/floats
with integer test points).  A compute function is modelled as
`Option Val`: `some v` is a call returning `v`, `none` is a call that
raises.  Submissions to the `ThreadPoolExecutor` are recorded in a
`dispatched` list rather than run, matching fire-and-forget dispatch.
-/

abbrev Key := String
abbrev Val := Nat

/-- A cache entry `{'data': ..., 'timestamp': ...}` as written by
`update_cache`. -/
structure Entry where
  data : Val
  timestamp : Int
deriving Repr, DecidableEq

/-- A value stored in the cache: either an entry dict, or the `True`
flag stored under a `<key>_refreshing` lock key. -/
inductive CVal where
  | entry (e : Entry)
  | flag
deriving Repr, DecidableEq

/-- One stored cell: the value together with the TTL that was passed to
`cache.set` (`none` when no `timeout=` argument was given). -/
structure Cell where
  val : CVal
  ttl : Option Int
deriving Repr, DecidableEq

/-- The cache store, an association list keyed by strings. -/
abbrev Store := List (Key × Cell)

/-- `cache.get(k)`: the first binding for `k`, `none` when absent. -/
def cacheGet : Store → Key → Option Cell
  | [], _ => none
  | p :: rest, k => if p.1 = k then some p.2 else cacheGet rest k

/-- `cache.delete(k)`: remove every binding for `k`. -/
def cacheDelete : Store → Key → Store
  | [], _ => []
  | p :: rest, k => if p.1 = k then cacheDelete rest k else p :: cacheDelete rest k

/-- `cache.set(k, v, timeout=ttl)`: bind `k` to `v` (with the recorded
TTL), replacing any previous binding. -/
def cacheSet (s : Store) (k : Key) (v : CVal) (ttl : Option Int) : Store :=
  (k, ⟨v, ttl⟩) :: cacheDelete s k

/-- The lock key derived from a cache key: `f"{key}_refreshing"`. -/
def refreshingKey (key : Key) : Key := key ++ "_refreshing"

/-- What `stale_while_revalidate` hands back to its caller. -/
inductive Outcome where
  /-- an exception propagated out of the call (synchronous compute failure) -/
  | raised
  /-- the force-refresh acknowledgment dict `{'status': 'OK', ...}` -/
  | ack
  /-- cached or freshly computed data -/
  | value (v : Val)
deriving Repr, DecidableEq

/-- Result of one `stale_while_revalidate` call: the returned outcome,
the store after the call, and the refresh tasks submitted to the
executor as `(key, refreshing_key)` pairs. -/
structure ResolveResult where
  outcome : Outcome
  store : Store
  dispatched : List (Key × Key)
deriving Repr, DecidableEq

/-- Result of `update_cache`: the store afterwards and whether the
compute succeeded (a failure is only printed, never raised). -/
structure UpdateResult where
  store : Store
  success : Bool
deriving Repr, DecidableEq

/-- `CacheManager.update_cache(key, compute_func, refreshing_key)`
(src/cache_manager.py lines 120-139): compute, on success store
`{'data': value, 'timestamp': now}` under `key`; in both outcomes delete
`refreshing_key` when one was passed. -/
def update_cache (s : Store) (now : Int) (key : Key) (compute_func : Option Val)
    (refreshing_key : Option Key) : UpdateResult :=
  match compute_func with
  | some v =>
    let s1 := cacheSet s key (CVal.entry ⟨v, now⟩) none
    match refreshing_key with
    | some rk => ⟨cacheDelete s1 rk, true⟩
    | none => ⟨s1, true⟩
  | none =>
    match refreshing_key with
    | some rk => ⟨cacheDelete s rk, false⟩
    | none => ⟨s, false⟩

/-- `CacheManager.stale_while_revalidate(timeout, refresh_margin,
compute_func)` (src/cache_manager.py lines 51-99), with the key already
derived and `force_refresh` already parsed from the request.  The
`CVal.flag` case under the data key models the `AttributeError` Python
would raise on `value.get('timestamp', 0)` for a non-dict value. -/
def stale_while_revalidate (s : Store) (now : Int) (timeout refresh_margin : Int)
    (compute_func : Option Val) (key : Key) (force_refresh : Bool) : ResolveResult :=
  if force_refresh then
    let rk := refreshingKey key
    if (cacheGet s rk).isNone then
      ⟨Outcome.ack, cacheSet s rk CVal.flag (some refresh_margin), [(key, rk)]⟩
    else
      ⟨Outcome.ack, s, []⟩
  else
    match cacheGet s key with
    | some cell =>
      match cell.val with
      | CVal.entry e =>
        if now - e.timestamp < timeout - refresh_margin then
          ⟨Outcome.value e.data, s, []⟩
        else
          let rk := refreshingKey key
          if (cacheGet s rk).isNone then
            ⟨Outcome.value e.data, cacheSet s rk CVal.flag (some refresh_margin), [(key, rk)]⟩
          else
            ⟨Outcome.value e.data, s, []⟩
      | CVal.flag => ⟨Outcome.raised, s, []⟩
    | none =>
      match compute_func with
      | none => ⟨Outcome.raised, s, []⟩
      | some v =>
        let u := update_cache s now key (some v) none
        ⟨Outcome.value v, u.store, []⟩

/-- `CacheManager._generate_key` (src/cache_manager.py lines 35-49):
drop the `force_refresh` control parameter, then serialize the remaining
parameters in the order they appear. -/
def _generate_key (path : String) (args : List (String × String)) : String :=
  let args2 := args.filter (fun kv => kv.1 != "force_refresh")
  let query_string := "&".intercalate (args2.map (fun kv => kv.1 ++ "=" ++ kv.2))
  if query_string != "" then path ++ "?" ++ query_string else path

/-- A periodic refresh job held by the `BackgroundScheduler`. -/
structure Job where
  id : Key
  interval : Nat
  compute : Option Val
deriving Repr, DecidableEq

/-- `CacheManager.schedule_periodic_refresh(key, interval, compute_func)`
(src/cache_manager.py lines 141-155): register a job with id `key`
unless one with that id already exists. -/
def schedule_periodic_refresh (jobs : List Job) (key : Key) (interval : Nat)
    (compute_func : Option Val) : List Job :=
  let job_exists := jobs.any (fun job => job.id == key)
  if job_exists then jobs
  else jobs ++ [⟨key, interval, compute_func⟩]

/-- Opaque argument tuple `(*args, **kwargs)` of a wrapped route
function. -/
abbrev Args := Nat

/-- The body of `wrapped` in `CacheManager.cacher` (src/cache_manager.py
lines 169-182), for the `compute_func=None` decorator form: the
`nonlocal compute_func` cell starts as `none`, and each call first runs
`compute_func = compute_func or (lambda: func(*args, **kwargs))`, then
hands the resulting compute function to `stale_while_revalidate`.
Returns the resolve result together with the updated `compute_func`
cell. -/
def cacher_wrapped (s : Store) (now timeout refresh_margin : Int)
    (func : Args → Option Val) (compute_func : Option (Option Val))
    (key : Key) (force_refresh : Bool) (a : Args) :
    ResolveResult × Option (Option Val) :=
  let cf := compute_func.getD (func a)
  (stale_while_revalidate s now timeout refresh_margin cf key force_refresh, some cf)

/-- Program counter of one thread running the stale-branch lock protocol
(src/cache_manager.py lines 91-93): first evaluate
`not self.cache.get(refreshing_key)`, then — only if that read saw no
lock — perform `cache.set` plus `executor.submit`.  The two store
accesses are separate operations, not one atomic set-if-absent. -/
inductive LockPC where
  | toCheck
  | toAct (sawNoLock : Bool)
  | done (dispatched : Bool)
deriving Repr, DecidableEq

/-- Shared store plus the program counters of two threads racing the
lock protocol for the same key. -/
structure ConcState where
  store : Store
  pc1 : LockPC
  pc2 : LockPC
deriving Repr, DecidableEq

/-- One atomic store access of the lock protocol by one thread. -/
def lockStep (key : Key) (refresh_margin : Int) (s : Store) : LockPC → Store × LockPC
  | LockPC.toCheck => (s, LockPC.toAct (cacheGet s (refreshingKey key)).isNone)
  | LockPC.toAct b =>
    if b then
      (cacheSet s (refreshingKey key) CVal.flag (some refresh_margin), LockPC.done true)
    else (s, LockPC.done false)
  | LockPC.done b => (s, LockPC.done b)

/-- Run the two threads under a schedule: `true` steps thread 1,
`false` steps thread 2. -/
def runSchedule (key : Key) (refresh_margin : Int) : List Bool → ConcState → ConcState
  | [], st => st
  | c :: rest, st =>
    if c then
      let r := lockStep key refresh_margin st.store st.pc1
      runSchedule key refresh_margin rest ⟨r.1, r.2, st.pc2⟩
    else
      let r := lockStep key refresh_margin st.store st.pc2
      runSchedule key refresh_margin rest ⟨r.1, st.pc1, r.2⟩

/-- How many of the two threads ended up dispatching a refresh. -/
def dispatchCount (st : ConcState) : Nat :=
  (match st.pc1 with | LockPC.done true => 1 | _ => 0) +
  (match st.pc2 with | LockPC.done true => 1 | _ => 0)

-- Store lemmas ---------------------------------------------------------------

theorem cacheGet_delete_self (s : Store) (k : Key) : cacheGet (cacheDelete s k) k = none := by
  induction s with
  | nil => rfl
  | cons p rest ih =>
    simp only [cacheDelete]
    by_cases h : p.1 = k
    · simpa [h] using ih
    · simpa [cacheGet, h] using ih

theorem cacheGet_delete_other (s : Store) (k k2 : Key) (h : k2 ≠ k) :
    cacheGet (cacheDelete s k) k2 = cacheGet s k2 := by
  induction s with
  | nil => rfl
  | cons p rest ih =>
    by_cases hp : p.1 = k
    · have hpk2 : ¬p.1 = k2 := fun hk => h (hk ▸ hp)
      simp only [cacheDelete, cacheGet, if_pos hp, if_neg hpk2]
      exact ih
    · by_cases hq : p.1 = k2
      · simp only [cacheDelete, cacheGet, if_neg hp, if_pos hq]
      · simp only [cacheDelete, cacheGet, if_neg hp, if_neg hq]
        exact ih

theorem cacheGet_set_self (s : Store) (k : Key) (v : CVal) (t : Option Int) :
    cacheGet (cacheSet s k v t) k = some ⟨v, t⟩ := by
  simp [cacheSet, cacheGet]

theorem cacheGet_set_other (s : Store) (k k2 : Key) (v : CVal) (t : Option Int)
    (h : k2 ≠ k) : cacheGet (cacheSet s k v t) k2 = cacheGet s k2 := by
  have hk : k ≠ k2 := fun hk => h hk.symm
  simp [cacheSet, cacheGet, hk, cacheGet_delete_other s k k2 h]

theorem refreshingKey_ne (key : Key) : refreshingKey key ≠ key := by
  intro h
  have hlen := congrArg String.length h
  rw [refreshingKey, String.length_append] at hlen
  have h11 : ("_refreshing" : String).length = 11 := rfl
  rw [h11] at hlen
  omega

-- Claim theorems -------------------------------------------------------------

/-- C1: a `stale_while_revalidate` call with `force_refresh = false` on a
key whose stored entry is stale (`now - timestamp ≥ timeout -
refresh_margin`) returns the stored stale data; when no refresh lock
exists it creates one with TTL `refresh_margin` and dispatches exactly
one refresh, and a further call while that lock exists dispatches
nothing; when a lock already exists it dispatches nothing and leaves the
store unchanged. -/
theorem stale_read_serves_and_single_dispatch
    (s : Store) (now timeout refresh_margin : Int) (cf : Option Val) (key : Key)
    (e : Entry) (t : Option Int)
    (hent : cacheGet s key = some ⟨CVal.entry e, t⟩)
    (hstale : timeout - refresh_margin ≤ now - e.timestamp) :
    (stale_while_revalidate s now timeout refresh_margin cf key false).outcome
        = Outcome.value e.data ∧
    (cacheGet s (refreshingKey key) = none →
      stale_while_revalidate s now timeout refresh_margin cf key false =
        ⟨Outcome.value e.data,
          cacheSet s (refreshingKey key) CVal.flag (some refresh_margin),
          [(key, refreshingKey key)]⟩ ∧
      (stale_while_revalidate
          (cacheSet s (refreshingKey key) CVal.flag (some refresh_margin))
          now timeout refresh_margin cf key false).dispatched = []) ∧
    (∀ c, cacheGet s (refreshingKey key) = some c →
      stale_while_revalidate s now timeout refresh_margin cf key false =
        ⟨Outcome.value e.data, s, []⟩) := by
  have hnotlt : ¬(now - e.timestamp < timeout - refresh_margin) := by omega
  have hkey2 : cacheGet (cacheSet s (refreshingKey key) CVal.flag (some refresh_margin)) key
      = some ⟨CVal.entry e, t⟩ := by
    rw [cacheGet_set_other _ _ _ _ _ (refreshingKey_ne key).symm, hent]
  have hlock2 : cacheGet (cacheSet s (refreshingKey key) CVal.flag (some refresh_margin))
      (refreshingKey key) = some ⟨CVal.flag, some refresh_margin⟩ :=
    cacheGet_set_self s (refreshingKey key) CVal.flag (some refresh_margin)
  refine ⟨?_, ?_, ?_⟩
  · cases hl : cacheGet s (refreshingKey key) with
    | none => simp [stale_while_revalidate, hent, hl, if_neg hnotlt]
    | some c => simp [stale_while_revalidate, hent, hl, if_neg hnotlt]
  · intro hl
    refine ⟨by simp [stale_while_revalidate, hent, hl, if_neg hnotlt], ?_⟩
    simp [stale_while_revalidate, hkey2, hlock2, if_neg hnotlt]
  · intro c hl
    simp [stale_while_revalidate, hent, hl, if_neg hnotlt]

theorem stale_read_serves_and_single_dispatch_witness :
    cacheGet [("/k", ⟨CVal.entry ⟨7, 0⟩, none⟩)] "/k" = some ⟨CVal.entry ⟨7, 0⟩, none⟩ ∧
    (20 : Int) - 10 ≤ 12 - 0 ∧
    (stale_while_revalidate [("/k", ⟨CVal.entry ⟨7, 0⟩, none⟩)] 12 20 10 (some 9) "/k"
        false).outcome = Outcome.value 7 :=
  ⟨by decide, by decide,
    (stale_read_serves_and_single_dispatch [("/k", ⟨CVal.entry ⟨7, 0⟩, none⟩)] 12 20 10
      (some 9) "/k" ⟨7, 0⟩ none (by decide) (by decide)).1⟩

/-- C2: a `stale_while_revalidate` call with `force_refresh = true`
always returns the acknowledgment (never cached data and never a
synchronous compute — the result does not depend on `compute_func`);
it creates a lock with TTL `refresh_margin` and dispatches exactly one
refresh when no lock exists, and does nothing when a lock exists. -/
theorem force_refresh_ack_and_conditional_dispatch
    (s : Store) (now timeout refresh_margin : Int) (cf : Option Val) (key : Key) :
    (stale_while_revalidate s now timeout refresh_margin cf key true).outcome
        = Outcome.ack ∧
    (cacheGet s (refreshingKey key) = none →
      stale_while_revalidate s now timeout refresh_margin cf key true =
        ⟨Outcome.ack, cacheSet s (refreshingKey key) CVal.flag (some refresh_margin),
          [(key, refreshingKey key)]⟩) ∧
    (∀ c, cacheGet s (refreshingKey key) = some c →
      stale_while_revalidate s now timeout refresh_margin cf key true =
        ⟨Outcome.ack, s, []⟩) := by
  refine ⟨?_, ?_, ?_⟩
  · cases hl : cacheGet s (refreshingKey key) with
    | none => simp [stale_while_revalidate, hl]
    | some c => simp [stale_while_revalidate, hl]
  · intro hl
    simp [stale_while_revalidate, hl]
  · intro c hl
    simp [stale_while_revalidate, hl]

theorem force_refresh_ack_and_conditional_dispatch_witness :
    cacheGet ([] : Store) (refreshingKey "/k") = none ∧
    stale_while_revalidate [] 0 20 10 none "/k" true =
      ⟨Outcome.ack, cacheSet [] (refreshingKey "/k") CVal.flag (some 10),
        [("/k", refreshingKey "/k")]⟩ :=
  ⟨by decide,
    (force_refresh_ack_and_conditional_dispatch [] 0 20 10 none "/k").2.1 (by decide)⟩

/-- C6: a `stale_while_revalidate` call with `force_refresh = false` on
a key whose stored entry is fresh (`now - timestamp < timeout -
refresh_margin`) returns the stored data, leaves the store exactly as it
was, dispatches nothing, and never invokes the compute function (the
whole result is independent of `compute_func`). -/
theorem fresh_hit_no_side_effects
    (s : Store) (now timeout refresh_margin : Int) (cf cf2 : Option Val) (key : Key)
    (e : Entry) (t : Option Int)
    (hent : cacheGet s key = some ⟨CVal.entry e, t⟩)
    (hfresh : now - e.timestamp < timeout - refresh_margin) :
    stale_while_revalidate s now timeout refresh_margin cf key false =
      ⟨Outcome.value e.data, s, []⟩ ∧
    stale_while_revalidate s now timeout refresh_margin cf key false =
      stale_while_revalidate s now timeout refresh_margin cf2 key false := by
  constructor
  · simp [stale_while_revalidate, hent, if_pos hfresh]
  · simp [stale_while_revalidate, hent, if_pos hfresh]

theorem fresh_hit_no_side_effects_witness :
    cacheGet [("/k", ⟨CVal.entry ⟨7, 0⟩, none⟩)] "/k" = some ⟨CVal.entry ⟨7, 0⟩, none⟩ ∧
    (5 : Int) - 0 < 20 - 10 ∧
    stale_while_revalidate [("/k", ⟨CVal.entry ⟨7, 0⟩, none⟩)] 5 20 10 (some 9) "/k" false =
      ⟨Outcome.value 7, [("/k", ⟨CVal.entry ⟨7, 0⟩, none⟩)], []⟩ :=
  ⟨by decide, by decide,
    (fresh_hit_no_side_effects [("/k", ⟨CVal.entry ⟨7, 0⟩, none⟩)] 5 20 10 (some 9)
      (some 9) "/k" ⟨7, 0⟩ none (by decide) (by decide)).1⟩

/-- C8: when the freshness window `timeout - refresh_margin` is zero or
negative (as with `timeout=0, refresh_margin=0` on the `/product_betas`
endpoint), every call after the initial miss — any `now` at or after the
entry's timestamp — takes the stale branch: it returns the last stored
value synchronously and, the lock being absent (the previous refresh
completed), dispatches a refresh. -/
theorem zero_window_every_read_stale
    (s : Store) (now timeout refresh_margin : Int) (cf : Option Val) (key : Key)
    (e : Entry) (t : Option Int)
    (hent : cacheGet s key = some ⟨CVal.entry e, t⟩)
    (hwin : timeout - refresh_margin ≤ 0)
    (hts : e.timestamp ≤ now)
    (hlock : cacheGet s (refreshingKey key) = none) :
    stale_while_revalidate s now timeout refresh_margin cf key false =
      ⟨Outcome.value e.data,
        cacheSet s (refreshingKey key) CVal.flag (some refresh_margin),
        [(key, refreshingKey key)]⟩ := by
  have hnotlt : ¬(now - e.timestamp < timeout - refresh_margin) := by omega
  simp [stale_while_revalidate, hent, hlock, if_neg hnotlt]

theorem zero_window_every_read_stale_witness :
    cacheGet [("/product_betas", ⟨CVal.entry ⟨3, 5⟩, none⟩)] "/product_betas"
        = some ⟨CVal.entry ⟨3, 5⟩, none⟩ ∧
    (0 : Int) - 0 ≤ 0 ∧ (5 : Int) ≤ 5 ∧
    cacheGet [("/product_betas", ⟨CVal.entry ⟨3, 5⟩, none⟩)] (refreshingKey "/product_betas")
        = none ∧
    stale_while_revalidate [("/product_betas", ⟨CVal.entry ⟨3, 5⟩, none⟩)] 5 0 0 (some 4)
        "/product_betas" false =
      ⟨Outcome.value 3,
        cacheSet [("/product_betas", ⟨CVal.entry ⟨3, 5⟩, none⟩)]
          (refreshingKey "/product_betas") CVal.flag (some 0),
        [("/product_betas", refreshingKey "/product_betas")]⟩ :=
  ⟨by decide, by decide, by decide, by decide,
    zero_window_every_read_stale [("/product_betas", ⟨CVal.entry ⟨3, 5⟩, none⟩)] 5 0 0
      (some 4) "/product_betas" ⟨3, 5⟩ none (by decide) (by decide) (by decide) (by decide)⟩

/-- C3 counterexample: on a miss the code calls `_safe_update_cache(key,
lambda: new_value)` with no `refreshing_key`, so a dangling refresh lock
for the key is NOT cleared: concretely, with a lock stored under
`/k_refreshing` and no entry under `/k`, a successful miss computation
leaves the lock in place. -/
theorem miss_does_not_clear_dangling_lock :
    cacheGet [("/k_refreshing", ⟨CVal.flag, some 10⟩)] "/k" = none ∧
    (stale_while_revalidate [("/k_refreshing", ⟨CVal.flag, some 10⟩)] 100 20 10 (some 5)
        "/k" false).outcome = Outcome.value 5 ∧
    cacheGet (stale_while_revalidate [("/k_refreshing", ⟨CVal.flag, some 10⟩)] 100 20 10
        (some 5) "/k" false).store "/k_refreshing" = some ⟨CVal.flag, some 10⟩ := by
  decide

/-- C3 (amended): a `stale_while_revalidate` call with `force_refresh =
false` on a key with no stored entry invokes the compute function
synchronously: a failure propagates to the caller and leaves the store
untouched; a success stores `{'data': v, 'timestamp': now}` under the
key, dispatches nothing and returns the fresh value — but the refresh
path is invoked without a lock key, so an existing refresh lock for the
key is left exactly as it was, not cleared. -/
theorem miss_computes_synchronously
    (s : Store) (now timeout refresh_margin : Int) (cf : Option Val) (key : Key)
    (hmiss : cacheGet s key = none) :
    (cf = none →
      stale_while_revalidate s now timeout refresh_margin cf key false =
        ⟨Outcome.raised, s, []⟩) ∧
    (∀ v, cf = some v →
      stale_while_revalidate s now timeout refresh_margin cf key false =
        ⟨Outcome.value v, cacheSet s key (CVal.entry ⟨v, now⟩) none, []⟩ ∧
      cacheGet (stale_while_revalidate s now timeout refresh_margin cf key false).store
          (refreshingKey key) = cacheGet s (refreshingKey key)) := by
  constructor
  · intro h
    subst h
    simp [stale_while_revalidate, hmiss]
  · intro v h
    subst h
    have hmain : stale_while_revalidate s now timeout refresh_margin (some v) key false =
        ⟨Outcome.value v, cacheSet s key (CVal.entry ⟨v, now⟩) none, []⟩ := by
      simp [stale_while_revalidate, hmiss, update_cache]
    refine ⟨hmain, ?_⟩
    rw [hmain]
    exact cacheGet_set_other s key (refreshingKey key) (CVal.entry ⟨v, now⟩) none
      (refreshingKey_ne key)

theorem miss_computes_synchronously_witness :
    cacheGet ([] : Store) "/k" = none ∧
    stale_while_revalidate [] 50 20 10 (some 5) "/k" false =
      ⟨Outcome.value 5, cacheSet [] "/k" (CVal.entry ⟨5, 50⟩) none, []⟩ :=
  ⟨by decide, ((miss_computes_synchronously [] 50 20 10 (some 5) "/k" (by decide)).2 5
    rfl).1⟩

/-- C5: `update_cache` with a lock key: on compute success it writes
`{'data': v, 'timestamp': now}` under the key and deletes the lock key;
on compute failure it performs no write to the key (the previously
stored entry is unchanged), still deletes the lock key, and raises
nothing — the function is total, the failure is only logged. -/
theorem update_cache_deletes_lock_both_outcomes
    (s : Store) (now : Int) (key rk : Key) (cf : Option Val)
    (hne : rk ≠ key) :
    (∀ v, cf = some v →
      update_cache s now key cf (some rk) =
        ⟨cacheDelete (cacheSet s key (CVal.entry ⟨v, now⟩) none) rk, true⟩ ∧
      cacheGet (update_cache s now key cf (some rk)).store key
          = some ⟨CVal.entry ⟨v, now⟩, none⟩ ∧
      cacheGet (update_cache s now key cf (some rk)).store rk = none) ∧
    (cf = none →
      update_cache s now key cf (some rk) = ⟨cacheDelete s rk, false⟩ ∧
      cacheGet (update_cache s now key cf (some rk)).store key = cacheGet s key ∧
      cacheGet (update_cache s now key cf (some rk)).store rk = none) := by
  constructor
  · intro v h
    subst h
    refine ⟨rfl, ?_, ?_⟩
    · show cacheGet (cacheDelete (cacheSet s key (CVal.entry ⟨v, now⟩) none) rk) key = _
      rw [cacheGet_delete_other _ _ _ hne.symm, cacheGet_set_self]
    · show cacheGet (cacheDelete (cacheSet s key (CVal.entry ⟨v, now⟩) none) rk) rk = _
      exact cacheGet_delete_self _ rk
  · intro h
    subst h
    refine ⟨rfl, ?_, ?_⟩
    · show cacheGet (cacheDelete s rk) key = _
      exact cacheGet_delete_other s rk key hne.symm
    · exact cacheGet_delete_self s rk

theorem update_cache_deletes_lock_both_outcomes_witness :
    ("/k_refreshing" : Key) ≠ "/k" ∧
    update_cache [("/k", ⟨CVal.entry ⟨1, 0⟩, none⟩), ("/k_refreshing", ⟨CVal.flag, some 10⟩)]
        30 "/k" none (some "/k_refreshing") =
      ⟨cacheDelete [("/k", ⟨CVal.entry ⟨1, 0⟩, none⟩), ("/k_refreshing", ⟨CVal.flag, some 10⟩)]
          "/k_refreshing", false⟩ :=
  ⟨by decide,
    ((update_cache_deletes_lock_both_outcomes
      [("/k", ⟨CVal.entry ⟨1, 0⟩, none⟩), ("/k_refreshing", ⟨CVal.flag, some 10⟩)]
      30 "/k" "/k_refreshing" none (by decide)).2 rfl).1⟩

/-- C10: in `CacheManager.cacher` with `compute_func=None`, the
`nonlocal compute_func` assignment binds the compute function on the
first `wrapped` call to a closure over that call's arguments, and every
later call — whatever its arguments, key, or force flag — passes that
same first-call closure to `stale_while_revalidate` (hence to both the
synchronous miss computation and any dispatched refresh), never a
closure over the current call's arguments. -/
theorem cacher_reuses_first_call_closure
    (s s2 : Store) (now now2 timeout refresh_margin : Int)
    (func : Args → Option Val) (key key2 : Key) (fr fr2 : Bool) (a1 a2 : Args) :
    (cacher_wrapped s now timeout refresh_margin func none key fr a1).2
        = some (func a1) ∧
    cacher_wrapped s2 now2 timeout refresh_margin func
        (cacher_wrapped s now timeout refresh_margin func none key fr a1).2 key2 fr2 a2 =
      (stale_while_revalidate s2 now2 timeout refresh_margin (func a1) key2 fr2,
        some (func a1)) := by
  exact ⟨rfl, rfl⟩

/-- C7: `schedule_periodic_refresh` is idempotent by key: starting from
a scheduler with no job registered under `key`, a first call registers
exactly one job carrying its interval and compute function, and a
second call for the same key — even with a different interval and
compute function — is a no-op that leaves the first registration in
force. -/
theorem schedule_periodic_refresh_idempotent
    (jobs : List Job) (key : Key) (i i2 : Nat) (f f2 : Option Val)
    (h : jobs.any (fun job => job.id == key) = false) :
    schedule_periodic_refresh (schedule_periodic_refresh jobs key i f) key i2 f2 =
      schedule_periodic_refresh jobs key i f ∧
    (schedule_periodic_refresh jobs key i f).filter (fun job => job.id == key) =
      [⟨key, i, f⟩] := by
  have h1 : schedule_periodic_refresh jobs key i f = jobs ++ [⟨key, i, f⟩] := by
    simp [schedule_periodic_refresh, h]
  have h2 : jobs.filter (fun job => job.id == key) = [] := by
    rw [List.filter_eq_nil_iff]
    intro a ha
    simp only [List.any_eq_false] at h
    exact h a ha
  constructor
  · rw [h1]
    have hany : (jobs ++ [(⟨key, i, f⟩ : Job)]).any (fun job => job.id == key) = true := by
      simp [List.any_append]
    simp [schedule_periodic_refresh, hany]
  · rw [h1, List.filter_append, h2]
    simp

theorem schedule_periodic_refresh_idempotent_witness :
    ([] : List Job).any (fun job => job.id == "/k") = false ∧
    schedule_periodic_refresh (schedule_periodic_refresh [] "/k" 10 (some 1)) "/k" 99
        (some 2) = schedule_periodic_refresh [] "/k" 10 (some 1) :=
  ⟨by decide, (schedule_periodic_refresh_idempotent [] "/k" 10 99 (some 1) (some 2)
    (by decide)).1⟩

-- Key-derivation lemmas ------------------------------------------------------

theorem intercalate_go_length (s : String) (l : List String) (acc : String) :
    acc.length ≤ (String.intercalate.go acc s l).length := by
  induction l generalizing acc with
  | nil => exact Nat.le_refl _
  | cons a as ih =>
    have h1 : String.intercalate.go acc s (a :: as) =
        String.intercalate.go (acc ++ s ++ a) s as := rfl
    have h2 := ih (acc ++ s ++ a)
    have h3 : (acc ++ s ++ a).length = acc.length + s.length + a.length := by
      rw [String.length_append, String.length_append]
    rw [h1]
    omega

theorem pair_serialize_length (kv : String × String) :
    1 ≤ (kv.1 ++ "=" ++ kv.2).length := by
  have h : (kv.1 ++ "=" ++ kv.2).length = kv.1.length + ("=" : String).length + kv.2.length := by
    rw [String.length_append, String.length_append]
  have h1 : ("=" : String).length = 1 := rfl
  omega

theorem intercalate_pairs_ne_empty (kv : String × String) (rest : List (String × String)) :
    ("&".intercalate ((kv :: rest).map (fun kv => kv.1 ++ "=" ++ kv.2)) != "") = true := by
  have h0 : "&".intercalate ((kv :: rest).map (fun kv => kv.1 ++ "=" ++ kv.2)) =
      String.intercalate.go (kv.1 ++ "=" ++ kv.2) "&"
        (rest.map (fun kv => kv.1 ++ "=" ++ kv.2)) := rfl
  have h1 := intercalate_go_length "&" (rest.map (fun kv => kv.1 ++ "=" ++ kv.2))
    (kv.1 ++ "=" ++ kv.2)
  have h2 := pair_serialize_length kv
  rw [bne_iff_ne, h0]
  intro hq
  rw [hq] at h1
  have h3 : ("" : String).length = 0 := rfl
  omega

theorem generate_key_eq_filter (path : String) (args : List (String × String)) :
    _generate_key path args =
      _generate_key path (args.filter (fun kv => kv.1 != "force_refresh")) := by
  simp only [_generate_key, List.filter_filter, Bool.and_self]

/-- C4 counterexample: `_generate_key` serializes parameters in the
order presented, so the same parameter set in a different order yields a
different key (`/p?a=1&b=2` vs `/p?b=2&a=1`). -/
theorem generate_key_order_dependent :
    _generate_key "/p" [("a", "1"), ("b", "2")] ≠
      _generate_key "/p" [("b", "2"), ("a", "1")] := by
  decide

/-- C4 (amended): `_generate_key` excludes the `force_refresh` control
parameter — inserting it anywhere, with any value, leaves the key
unchanged — and is determined by the path together with the remaining
parameters *in presentation order* (not order-independently): requests
agreeing on the ordered non-control parameter list get identical keys,
the key is the path alone when no parameters remain, and otherwise it is
`path + "?" + "k1=v1&k2=v2..."` over the remaining ordered parameters. -/
theorem generate_key_excludes_control_ordered
    (path v : String) (l1 l2 args args2 : List (String × String))
    (kv : String × String) (rest : List (String × String)) :
    _generate_key path (l1 ++ ("force_refresh", v) :: l2) =
      _generate_key path (l1 ++ l2) ∧
    (args.filter (fun kv => kv.1 != "force_refresh") =
        args2.filter (fun kv => kv.1 != "force_refresh") →
      _generate_key path args = _generate_key path args2) ∧
    (args.filter (fun kv => kv.1 != "force_refresh") = [] →
      _generate_key path args = path) ∧
    (args.filter (fun kv => kv.1 != "force_refresh") = kv :: rest →
      _generate_key path args = path ++ "?" ++
        "&".intercalate ((kv :: rest).map (fun kv => kv.1 ++ "=" ++ kv.2))) := by
  have hfilters : ∀ x y : List (String × String),
      x.filter (fun kv => kv.1 != "force_refresh") =
        y.filter (fun kv => kv.1 != "force_refresh") →
      _generate_key path x = _generate_key path y := by
    intro x y h
    rw [generate_key_eq_filter path x, generate_key_eq_filter path y, h]
  refine ⟨?_, hfilters args args2, ?_, ?_⟩
  · apply hfilters
    simp [List.filter_append, List.filter_cons]
  · intro h
    rw [generate_key_eq_filter path args, h]
    rfl
  · intro h
    have hself : (kv :: rest).filter (fun kv => kv.1 != "force_refresh") = kv :: rest := by
      have h2 : (args.filter (fun kv => kv.1 != "force_refresh")).filter
          (fun kv => kv.1 != "force_refresh") =
          args.filter (fun kv => kv.1 != "force_refresh") := by
        simp [List.filter_filter]
      rw [h] at h2
      exact h2
    rw [generate_key_eq_filter path args, h]
    simp only [_generate_key, hself]
    rw [if_pos (intercalate_pairs_ne_empty kv rest)]

theorem generate_key_excludes_control_ordered_witness :
    _generate_key "/p" ([("a", "1")] ++ ("force_refresh", "true") :: []) =
      _generate_key "/p" ([("a", "1")] ++ []) ∧
    _generate_key "/p" [("a", "1"), ("force_refresh", "true")] = "/p?a=1" :=
  ⟨(generate_key_excludes_control_ordered "/p" "true" [("a", "1")] [] [] [] ("a", "1")
      []).1,
    by decide⟩

/-- C9: the refresh-lock presence check and lock creation are two
separate store operations (`cache.get` then `cache.set`), not an atomic
set-if-absent: interleaving two stale-read triggers for the same key as
check, check, act, act makes both threads dispatch a refresh, while the
sequential order check, act, check, act dispatches only one. -/
theorem lock_check_then_act_not_atomic :
    dispatchCount (runSchedule "/k" 10 [true, false, true, false]
      ⟨[], LockPC.toCheck, LockPC.toCheck⟩) = 2 ∧
    dispatchCount (runSchedule "/k" 10 [true, true, false, false]
      ⟨[], LockPC.toCheck, LockPC.toCheck⟩) = 1 := by
  decide
